import Mathlib

/-!
Verification of the Office-to-Markdown converter application (`app.py`).

The application is a thin controller around an external conversion engine
(`MarkItDown`).  We embed the pure parts of the source directly (the URL
classifier `is_youtube_url`, the identifier extractor `extract_youtube_id`,
the filename derivation `rsplit(".", 1)[0] + ".md"`, the preview truncation)
and model the effectful parts with explicit data:

* the external engine call `md.convert(...)` is a parameter of type
  `Except (List Char) (List Char)`: `.ok text` for a successful conversion
  returning `text`, `.error e` for a raised exception whose `str(e)` is `e`;
* the scratch temporary file of `convert_file_to_markdown` is tracked by a
  `scratchRemoved` flag: the source calls `os.unlink` only on the straight-line
  path after a successful `md.convert`, so the flag is `true` exactly there;
* Streamlit session state (`st.session_state.markdown_content` /
  `.file_name`) is an explicit `SessionState` record threaded through
  `submitStep`, the embedding of the body of the Convert button handler;
* Python truthiness is rendered explicitly: a string is truthy iff nonempty,
  an `Optional` uploaded file is truthy iff present, so `if error:` in the
  handler is `error = some e` with `e ≠ []`.

Strings are modelled as `List Char` throughout (Python `str` is a sequence of
characters; slicing, membership and `rsplit` translate directly).
-/

namespace OfficeToMd

/-- Characters admitted by the identifier character class `[0-9A-Za-z_-]`
used in every extraction regex of `extract_youtube_id`. -/
def idChar (c : Char) : Bool :=
  ('0' ≤ c && c ≤ '9') || ('A' ≤ c && c ≤ 'Z') || ('a' ≤ c && c ≤ 'z')
    || c == '_' || c == '-'

/-- `{11}` repetition of the identifier class: succeeds iff at least 11
characters are available and the first 11 all lie in the class, returning
those 11 characters (the regex capture group). -/
def takeId11 (l : List Char) : Option (List Char) :=
  if (l.take 11).length = 11 ∧ (l.take 11).all idChar then some (l.take 11)
  else none

/-- `re.search` for the first pattern of `extract_youtube_id`,
`(?:v=|\/)([0-9A-Za-z_-]{11}).*`: scan positions left to right; at a position
starting with `v=` or `/` whose following 11 characters are identifier
characters the capture group is returned.  The trailing `.*` always matches
and is dropped. -/
def searchPat1 : List Char → Option (List Char)
  | [] => none
  | c :: rest =>
      if c = 'v' ∧ rest.head? = some '=' then
        match takeId11 rest.tail with
        | some g => some g
        | none => searchPat1 rest
      else if c = '/' then
        match takeId11 rest with
        | some g => some g
        | none => searchPat1 rest
      else searchPat1 rest

/-- `re.search` for a pattern of the form `(?:tok)([0-9A-Za-z_-]{11})` with a
literal token `tok` (the second and third patterns of `extract_youtube_id`,
`youtu.be/` and `embed/`): leftmost position where the token occurs followed
by 11 identifier characters. -/
def searchTok (tok : List Char) : List Char → Option (List Char)
  | [] => none
  | c :: rest =>
      if tok.isPrefixOf (c :: rest) then
        match takeId11 ((c :: rest).drop tok.length) with
        | some g => some g
        | none => searchTok tok rest
      else searchTok tok rest

/-- `extract_youtube_id` (app.py lines 29-42): try the three patterns in
order, return the first capture, `None` if all fail. -/
def extract_youtube_id (s : List Char) : Option (List Char) :=
  match searchPat1 s with
  | some g => some g
  | none =>
      match searchTok ("youtu.be/".data) s with
      | some g => some g
      | none => searchTok ("embed/".data) s

/-- Alternatives of the optional protocol group `(https?://)?`. -/
def protoOpts : List (List Char) := [[], "http://".data, "https://".data]

/-- Alternatives of the optional `(www\.)?` group. -/
def wwwOpts : List (List Char) := [[], "www.".data]

/-- Alternatives of the domain group `(youtube\.com|youtu\.?be)`: the second
branch has an optional dot, so it matches both `youtu.be` and `youtube`. -/
def domainOpts : List (List Char) :=
  ["youtube.com".data, "youtu.be".data, "youtube".data]

/-- The suffix `.+$` of the classifier regex: at least one character, none of
them a newline (`.` does not match `\n`), where `$` also accepts a single
trailing newline. -/
def tailOK (rest : List Char) : Bool :=
  let core := if rest.getLast? = some '\n' then rest.dropLast else rest
  !core.isEmpty && core.all (fun c => c != '\n')

/-- `is_youtube_url` (app.py lines 23-26): `re.match` of
`^(https?://)?(www\.)?(youtube\.com|youtu\.?be)/.+$` as a boolean, i.e.
existence of a decomposition into the alternatives. -/
def is_youtube_url (s : List Char) : Bool :=
  protoOpts.any fun p =>
    wwwOpts.any fun w =>
      domainOpts.any fun d =>
        (p ++ w ++ d ++ ['/']).isPrefixOf s
          && tailOK (s.drop (p ++ w ++ d ++ ['/']).length)

/-- Python `filename.rsplit(".", 1)[0]`: everything before the last dot when
the string contains a dot, the whole string otherwise. -/
def rsplitStem (l : List Char) : List Char :=
  if '.' ∈ l then ((l.reverse.dropWhile (fun c => c != '.')).tail).reverse
  else l

/-- Result of `convert_file_to_markdown`: the returned
`(markdown_content, error_message)` pair together with whether the scratch
temporary file was unlinked before the function returned. -/
structure FileConvResult where
  content : List Char
  error : Option (List Char)
  scratchRemoved : Bool
  deriving DecidableEq, Repr

/-- `convert_file_to_markdown` (app.py lines 45-72) with the engine call
abstracted as `engine`.  The source writes the payload to a scratch file,
calls `md.convert` on it, unlinks the scratch file, and returns
`(result.text_content, None)`; any exception is caught and `("", str(e))` is
returned — and on that path the `os.unlink` call has been skipped, so the
scratch file is still present. -/
def convert_file_to_markdown (engine : Except (List Char) (List Char)) :
    FileConvResult :=
  match engine with
  | .ok text => ⟨text, none, true⟩
  | .error e => ⟨[], some e, false⟩

/-- `convert_youtube_to_markdown` (app.py lines 75-92) with the engine call
abstracted: returns `(result.text_content, None)` on success and
`("", str(e))` when the engine raises. -/
def convert_youtube_to_markdown (engine : Except (List Char) (List Char)) :
    List Char × Option (List Char) :=
  match engine with
  | .ok text => (text, none)
  | .error e => ([], some e)

/-- The session-scoped state of `main`: `st.session_state.markdown_content`
and `st.session_state.file_name`. -/
structure SessionState where
  markdown_content : List Char
  file_name : List Char
  deriving DecidableEq, Repr

/-- The user-visible outcome of one Convert-button submission. -/
inductive SubmitMsg where
  /-- `st.error("Please upload a file or enter a YouTube URL")` -/
  | validationErrorNoInput
  /-- `st.error("Please enter a valid YouTube URL")` -/
  | validationErrorBadUrl
  /-- `st.error(f"Error during conversion: {error}")` -/
  | conversionError (e : List Char)
  /-- `st.success("Conversion completed successfully!")` -/
  | success
  /-- dead branch: inside the else with no file and a falsy URL the handler
  does nothing (unreachable, kept for faithfulness) -/
  | noAction
  deriving DecidableEq, Repr

/-- Everything one Convert-button submission produces: the session state
after the handler, the surfaced message, and which conversion entry points
were invoked. -/
structure StepResult where
  state : SessionState
  msg : SubmitMsg
  calledFileConv : Bool
  calledUrlConv : Bool
  deriving DecidableEq, Repr

/-- The body of the Convert button handler (app.py lines 179-214).

`file?` is the uploaded file's name when a file is present (an
`UploadedFile` object is always truthy), `url` the text-input string (truthy
iff nonempty).  `fileEngine` / `urlEngine` stand for the external engine's
behaviour on the respective conversion calls.  Mirrors the source exactly:

* neither input truthy → validation error, nothing else happens;
* truthy URL failing `is_youtube_url` → validation error, nothing else;
* otherwise, a present file takes the file branch (the URL is not used);
  else a truthy URL takes the URL branch; the success path stores content
  and filename in session state, and `if error:` is Python truthiness, so
  only a *nonempty* error string takes the error path. -/
def submitStep (st : SessionState) (file? : Option (List Char))
    (url : List Char) (fileEngine urlEngine : Except (List Char) (List Char)) :
    StepResult :=
  if file? = none ∧ url = [] then
    ⟨st, .validationErrorNoInput, false, false⟩
  else if url ≠ [] ∧ is_youtube_url url = false then
    ⟨st, .validationErrorBadUrl, false, false⟩
  else
    match file? with
    | some fname =>
        let r := convert_file_to_markdown fileEngine
        match r.error with
        | some e =>
            if e ≠ [] then ⟨st, .conversionError e, true, false⟩
            else ⟨⟨r.content, fname⟩, .success, true, false⟩
        | none => ⟨⟨r.content, fname⟩, .success, true, false⟩
    | none =>
        if url = [] then ⟨st, .noAction, false, false⟩
        else
          let r := convert_youtube_to_markdown urlEngine
          match r.2 with
          | some e =>
              if e ≠ [] then ⟨st, .conversionError e, false, true⟩
              else
                ⟨⟨r.1, match extract_youtube_id url with
                       | some vid => "youtube_".data ++ vid ++ ".md".data
                       | none => "youtube_video.md".data⟩,
                 .success, false, true⟩
          | none =>
              ⟨⟨r.1, match extract_youtube_id url with
                     | some vid => "youtube_".data ++ vid ++ ".md".data
                     | none => "youtube_video.md".data⟩,
               .success, false, true⟩

/-- The truncation notice appended to an over-long preview. -/
def truncNotice : List Char :=
  "...\n\n(Preview truncated. Download the full file to see all content.)".data

/-- What the results section renders (app.py lines 216-239). -/
structure RenderOut where
  download_name : List Char
  download_data : List Char
  preview : List Char
  deriving DecidableEq, Repr

/-- The results section: rendered only when the stored content is truthy
(nonempty).  The download button serves the full stored content under
`file_name.rsplit(".", 1)[0] + ".md"`; the preview is the first 2000
characters, with the truncation notice appended when the content is longer
than 2000 characters. -/
def renderResults (st : SessionState) : Option RenderOut :=
  if st.markdown_content = [] then none
  else
    some
      { download_name := rsplitStem st.file_name ++ ".md".data
        download_data := st.markdown_content
        preview :=
          let p := st.markdown_content.take 2000
          if 2000 < st.markdown_content.length then p ++ truncNotice else p }

/-! ### Helper lemmas -/

/-- A successful `{11}` capture consists of identifier characters only. -/
lemma takeId11_all {l g : List Char} (h : takeId11 l = some g) :
    g.all idChar = true := by
  rw [takeId11] at h
  split at h
  · rename_i hcond
    injection h with h
    rw [← h]
    exact hcond.2
  · exact absurd h (by simp)

/-- Any capture of the first pattern consists of identifier characters. -/
lemma searchPat1_all {s g : List Char} (h : searchPat1 s = some g) :
    g.all idChar = true := by
  induction s with
  | nil => simp [searchPat1] at h
  | cons c rest ih =>
    rw [searchPat1] at h
    split at h
    · split at h
      · rename_i heq
        injection h with h
        exact h ▸ takeId11_all heq
      · exact ih h
    · split at h
      · split at h
        · rename_i heq
          injection h with h
          exact h ▸ takeId11_all heq
        · exact ih h
      · exact ih h

/-- Any capture of a token pattern consists of identifier characters. -/
lemma searchTok_all {tok s g : List Char} (h : searchTok tok s = some g) :
    g.all idChar = true := by
  induction s with
  | nil => simp [searchTok] at h
  | cons c rest ih =>
    rw [searchTok] at h
    split at h
    · split at h
      · rename_i heq
        injection h with h
        exact h ▸ takeId11_all heq
      · exact ih h
    · exact ih h

/-- Every extracted identifier consists of identifier characters. -/
lemma extract_youtube_id_all {s g : List Char}
    (h : extract_youtube_id s = some g) : g.all idChar = true := by
  rw [extract_youtube_id] at h
  split at h
  · rename_i heq
    injection h with h
    exact h ▸ searchPat1_all heq
  · split at h
    · rename_i heq
      injection h with h
      exact h ▸ searchTok_all heq
    · exact searchTok_all h

/-- Extracted identifiers never contain a dot. -/
lemma extract_youtube_id_no_dot {s g : List Char}
    (h : extract_youtube_id s = some g) : '.' ∉ g := by
  intro hmem
  have hall := extract_youtube_id_all h
  rw [List.all_eq_true] at hall
  exact absurd (hall '.' hmem) (by decide)

/-- The first pattern cannot fire on a string containing neither a slash nor
the substring `v=`. -/
lemma searchPat1_eq_none {s : List Char} (h1 : '/' ∉ s)
    (h2 : ¬ (['v', '='] <:+: s)) : searchPat1 s = none := by
  induction s with
  | nil => rfl
  | cons c rest ih =>
    have h1' : '/' ∉ rest := fun hm => h1 (List.mem_cons_of_mem _ hm)
    have h2' : ¬ (['v', '='] <:+: rest) := fun hi => h2 (List.infix_cons hi)
    have hA : ¬ (c = 'v' ∧ rest.head? = some '=') := by
      rintro ⟨hc, hh⟩
      apply h2
      rcases rest with _ | ⟨r0, rtail⟩
      · simp at hh
      · simp only [List.head?_cons, Option.some.injEq] at hh
        subst hc; subst hh
        exact ⟨[], rtail, by simp⟩
    have hB : ¬ (c = '/') := by
      intro hc
      subst hc
      exact h1 (List.mem_cons_self _ _)
    rw [searchPat1, if_neg hA, if_neg hB]
    exact ih h1' h2'

/-- A token pattern whose token contains a slash cannot fire on a string
without a slash. -/
lemma searchTok_eq_none (tok : List Char) {s : List Char} (htok : '/' ∈ tok)
    (h : '/' ∉ s) : searchTok tok s = none := by
  induction s with
  | nil => rfl
  | cons c rest ih =>
    have hA : ¬ (tok.isPrefixOf (c :: rest) = true) := by
      intro hp
      rw [List.isPrefixOf_iff_prefix] at hp
      exact h (hp.subset htok)
    rw [searchTok, if_neg hA]
    exact ih (fun hm => h (List.mem_cons_of_mem _ hm))

/-- The classifier rejects every string without a slash: each alternative of
the regex contains a literal `/`. -/
lemma is_youtube_url_eq_false {s : List Char} (h : '/' ∉ s) :
    is_youtube_url s = false := by
  rw [Bool.eq_false_iff]
  intro hc
  rw [is_youtube_url, List.any_eq_true] at hc
  obtain ⟨p, _, hc⟩ := hc
  rw [List.any_eq_true] at hc
  obtain ⟨w, _, hc⟩ := hc
  rw [List.any_eq_true] at hc
  obtain ⟨d, _, hc⟩ := hc
  rw [Bool.and_eq_true] at hc
  have hpre := hc.1
  rw [List.isPrefixOf_iff_prefix] at hpre
  exact h (hpre.subset (by simp))

/-- `dropWhile (· != '.')` stops exactly at the first dot. -/
lemma dropWhile_dot_spec : ∀ (r : List Char), '.' ∈ r →
    ∃ a b, r = a ++ '.' :: b ∧ '.' ∉ a ∧
      r.dropWhile (fun c => c != '.') = '.' :: b := by
  intro r
  induction r with
  | nil => intro h; simp at h
  | cons c t ih =>
    intro hmem
    by_cases hc : c = '.'
    · subst hc
      exact ⟨[], t, rfl, by simp, by rw [List.dropWhile_cons, if_neg (by simp)]⟩
    · obtain ⟨a, b, h1, h2, h3⟩ := ih (by
        rcases List.mem_cons.mp hmem with h | h
        · exact absurd h.symm hc
        · exact h)
      refine ⟨c :: a, b, by rw [List.cons_append, h1], ?_, ?_⟩
      · intro hm
        rcases List.mem_cons.mp hm with h | h
        · exact hc h.symm
        · exact h2 h
      · rw [List.dropWhile_cons, if_pos (by simp [hc]), h3]

/-- `rsplit(".", 1)[0]` on a filename containing a dot yields the part
before the last dot. -/
lemma rsplitStem_split {l : List Char} (h : '.' ∈ l) :
    ∃ stem ext, l = stem ++ '.' :: ext ∧ '.' ∉ ext ∧ rsplitStem l = stem := by
  have hr : '.' ∈ l.reverse := List.mem_reverse.mpr h
  obtain ⟨a, b, h1, h2, h3⟩ := dropWhile_dot_spec l.reverse hr
  refine ⟨b.reverse, a.reverse, ?_, ?_, ?_⟩
  · have hl : l = (a ++ '.' :: b).reverse := by
      rw [← h1, List.reverse_reverse]
    rw [hl]
    simp
  · intro hm
    exact h2 (List.mem_reverse.mp hm)
  · rw [rsplitStem, if_pos h, h3]
    rfl

/-- `dropWhile (· != '.')` skips a dotless block before an explicit dot. -/
lemma dropWhile_no_dot (a z : List Char) (ha : '.' ∉ a) :
    List.dropWhile (fun c => c != '.') (a ++ '.' :: z) = '.' :: z := by
  induction a with
  | nil => rw [List.nil_append, List.dropWhile_cons, if_neg (by simp)]
  | cons c t ih =>
    have hc : c ≠ '.' := fun h => ha (by rw [h]; exact List.mem_cons_self _ _)
    rw [List.cons_append, List.dropWhile_cons, if_pos (by simp [hc])]
    exact ih (fun hm => ha (List.mem_cons_of_mem _ hm))

/-- Replacing the extension commutes with appending `".md"`: when neither
part contains a further dot the stem is recovered exactly. -/
lemma rsplitStem_append (u v : List Char) (hv : '.' ∉ v) :
    rsplitStem (u ++ '.' :: v) = u := by
  have hmem : '.' ∈ u ++ '.' :: v := by simp
  rw [rsplitStem, if_pos hmem]
  have hrev : (u ++ '.' :: v).reverse = v.reverse ++ '.' :: u.reverse := by
    simp
  rw [hrev, dropWhile_no_dot _ _ (fun hm => hv (List.mem_reverse.mp hm))]
  simp

/-! ### Claim theorems -/

/-- C1 (counterexample): the claim that the scratch file is removed even when
the engine's convert call raises is false — on the exception path the
function returns from the handler without reaching `os.unlink`, so for the
concrete engine failure `"boom"` the scratch file is not removed. -/
theorem convert_file_scratch_leak_cex :
    (convert_file_to_markdown (Except.error "boom".data)).scratchRemoved
      = false := rfl

/-- C1 (amended): the scratch file created by `convert_file_to_markdown` is
removed when the engine's convert call succeeds, but it is not removed when
the convert call raises — the `os.unlink` sits on the straight-line success
path only, not in a finally/with block. -/
theorem convert_file_scratch_cleanup_amended (t e : List Char) :
    (convert_file_to_markdown (Except.ok t)).scratchRemoved = true ∧
    (convert_file_to_markdown (Except.error e)).scratchRemoved = false :=
  ⟨rfl, rfl⟩

/-- C2 (counterexample): a string rejected by `is_youtube_url` on which
`extract_youtube_id` nevertheless returns an identifier: the extraction
patterns are searched anywhere in the string and do not require the
recognized domain, so `https://example.com/watch?v=dQw4w9WgXcQ` is rejected
by the classifier yet yields `dQw4w9WgXcQ`. -/
theorem classifier_false_extract_some_cex :
    is_youtube_url "https://example.com/watch?v=dQw4w9WgXcQ".data = false ∧
    extract_youtube_id "https://example.com/watch?v=dQw4w9WgXcQ".data =
      some "dQw4w9WgXcQ".data ∧
    extract_youtube_id "https://example.com/watch?v=dQw4w9WgXcQ".data ≠
      none := by decide

/-- C2 (amended): for every input string containing no `/` character and no
`v=` substring, the classifier reports "not a match" and extraction returns
no identifier.  (The original claim fails because extraction is independent
of classification: any string containing `v=` or `/` followed by 11
identifier characters yields an identifier even when the classifier rejects
the string.) -/
theorem extract_none_of_no_slash_no_veq (s : List Char) (h1 : '/' ∉ s)
    (h2 : ¬ (['v', '='] <:+: s)) :
    is_youtube_url s = false ∧ extract_youtube_id s = none := by
  refine ⟨is_youtube_url_eq_false h1, ?_⟩
  rw [extract_youtube_id, searchPat1_eq_none h1 h2,
    searchTok_eq_none "youtu.be/".data (by decide) h1,
    searchTok_eq_none "embed/".data (by decide) h1]

/-- C2 (witness): the amended theorem applied to `"hello world"`. -/
theorem extract_none_of_no_slash_no_veq_witness :
    '/' ∉ "hello world".data ∧ ¬ (['v', '='] <:+: "hello world".data) ∧
    (is_youtube_url "hello world".data = false ∧
      extract_youtube_id "hello world".data = none) :=
  ⟨by decide, by decide,
    extract_none_of_no_slash_no_veq "hello world".data (by decide)
      (by decide)⟩

/-- C3 (counterexample): a conversion call that returns an error with an
*empty* message (`str(e) = ""`, e.g. an exception constructed without
arguments) is falsy under `if error:`, so the handler takes the success
branch: the previously stored result is overwritten and a success banner is
shown instead of an error. -/
theorem empty_error_overwrites_cex :
    (convert_file_to_markdown (Except.error [])).error = some [] ∧
    (submitStep ⟨"prior".data, "prior.md".data⟩ (some "doc.docx".data) []
        (Except.error []) (Except.ok [])).state ≠
      ⟨"prior".data, "prior.md".data⟩ ∧
    (submitStep ⟨"prior".data, "prior.md".data⟩ (some "doc.docx".data) []
        (Except.error []) (Except.ok [])).msg = SubmitMsg.success := by
  decide

/-- C3 (amended): whenever the handler surfaces a conversion-error message
the stored content and filename are left unchanged, and whenever it surfaces
success the stored result is overwritten with values independent of the
previous session state (so at most one result is live).  (The original claim
fails only for an engine error whose message is the empty string, which
Python truthiness makes indistinguishable from success.) -/
theorem submit_error_preserves_success_overwrites (st : SessionState)
    (file? : Option (List Char)) (url : List Char)
    (fe ue : Except (List Char) (List Char)) :
    (∀ e, (submitStep st file? url fe ue).msg = SubmitMsg.conversionError e →
      (submitStep st file? url fe ue).state = st) ∧
    ((submitStep st file? url fe ue).msg = SubmitMsg.success →
      ∀ st₂, (submitStep st₂ file? url fe ue).state =
        (submitStep st file? url fe ue).state) := by
  rcases file? with _ | fname
  · by_cases hu : url = []
    · simp [submitStep, hu]
    · by_cases hyt : is_youtube_url url = true
      · rcases ue with e | t
        · by_cases he : e = [] <;>
            simp [submitStep, hu, hyt, convert_youtube_to_markdown, he]
        · simp [submitStep, hu, hyt, convert_youtube_to_markdown]
      · have hyt' : is_youtube_url url = false := by
          cases hb : is_youtube_url url
          · rfl
          · exact absurd hb hyt
        simp [submitStep, hu, hyt']
  · by_cases hval : url ≠ [] ∧ is_youtube_url url = false
    · simp [submitStep, hval]
    · rcases fe with e | t
      · by_cases he : e = [] <;>
          simp [submitStep, hval, convert_file_to_markdown, he]
      · simp [submitStep, hval, convert_file_to_markdown]

/-- C3 (witness): a failed file conversion with a nonempty message leaves
the stored result untouched. -/
theorem submit_error_preserves_witness :
    (submitStep ⟨"prior".data, "prior.md".data⟩ (some "doc.docx".data) []
        (Except.error "boom".data) (Except.ok [])).state =
      ⟨"prior".data, "prior.md".data⟩ :=
  (submit_error_preserves_success_overwrites
      ⟨"prior".data, "prior.md".data⟩ (some "doc.docx".data) []
      (Except.error "boom".data) (Except.ok [])).1
    "boom".data (by decide)

/-- C4: both conversion functions catch every engine exception and return it
as a `(content, error-message)` pair with empty content; on success they
return the engine's text with no error.  The embedding is a total function,
so no exception reaches the caller. -/
theorem engine_errors_never_propagate (t e : List Char) :
    convert_file_to_markdown (Except.ok t) = ⟨t, none, true⟩ ∧
    (convert_file_to_markdown (Except.error e)).content = [] ∧
    (convert_file_to_markdown (Except.error e)).error = some e ∧
    convert_youtube_to_markdown (Except.ok t) = (t, none) ∧
    convert_youtube_to_markdown (Except.error e) = ([], some e) :=
  ⟨rfl, rfl, rfl, rfl, rfl⟩

/-- C5: a submission with neither a file nor a URL, and a submission with a
supplied (nonempty) URL that fails the classifier, each produce exactly the
corresponding validation error, invoke neither conversion entry point, and
leave the session state unchanged. -/
theorem validation_rejects_without_conversion (st : SessionState)
    (file? : Option (List Char)) (url : List Char)
    (fe ue : Except (List Char) (List Char)) :
    (file? = none → url = [] →
      submitStep st file? url fe ue =
        ⟨st, SubmitMsg.validationErrorNoInput, false, false⟩) ∧
    (url ≠ [] → is_youtube_url url = false →
      submitStep st file? url fe ue =
        ⟨st, SubmitMsg.validationErrorBadUrl, false, false⟩) := by
  constructor
  · intro h1 h2
    unfold submitStep
    rw [if_pos ⟨h1, h2⟩]
  · intro h1 h2
    unfold submitStep
    rw [if_neg (by rintro ⟨-, h⟩; exact h1 h), if_pos ⟨h1, h2⟩]

/-- C5 (witness): the empty submission and the spec's example URL
`https://example.com/video` each yield their validation error with no
conversion call and no state change. -/
theorem validation_rejects_witness :
    submitStep ⟨"p".data, "n.md".data⟩ none [] (Except.ok [])
        (Except.ok []) =
      ⟨⟨"p".data, "n.md".data⟩, SubmitMsg.validationErrorNoInput,
        false, false⟩ ∧
    submitStep ⟨"p".data, "n.md".data⟩ none "https://example.com/video".data
        (Except.ok []) (Except.ok []) =
      ⟨⟨"p".data, "n.md".data⟩, SubmitMsg.validationErrorBadUrl,
        false, false⟩ :=
  ⟨(validation_rejects_without_conversion ⟨"p".data, "n.md".data⟩ none []
      (Except.ok []) (Except.ok [])).1 rfl rfl,
    (validation_rejects_without_conversion ⟨"p".data, "n.md".data⟩ none
      "https://example.com/video".data (Except.ok []) (Except.ok [])).2
      (by decide) (by decide)⟩

/-- C6: for a displayed (nonempty) stored result, content of length at most
2000 is previewed in full with no truncation notice, content longer than
2000 is previewed as exactly its first 2000 characters followed by the
truncation notice, and the download always serves the full content. -/
theorem preview_truncation_spec (content fname : List Char)
    (h : content ≠ []) :
    ∃ r, renderResults ⟨content, fname⟩ = some r ∧
      r.download_data = content ∧
      (content.length ≤ 2000 → r.preview = content) ∧
      (2000 < content.length →
        r.preview = content.take 2000 ++ truncNotice) := by
  by_cases hlen : 2000 < content.length
  · refine ⟨⟨rsplitStem fname ++ ".md".data, content,
        content.take 2000 ++ truncNotice⟩,
      by simp [renderResults, h, hlen], rfl, ?_, fun _ => rfl⟩
    intro hle
    exact absurd hlen (not_lt.mpr hle)
  · refine ⟨⟨rsplitStem fname ++ ".md".data, content, content⟩,
      by simp [renderResults, h, hlen,
        List.take_of_length_le (not_lt.mp hlen)],
      rfl, fun _ => rfl, ?_⟩
    intro hlt
    exact absurd hlt hlen

/-- C6 (witness): the preview of the short content `"abc"` stored under
`report.docx` is the full content. -/
theorem preview_truncation_witness :
    "abc".data ≠ [] ∧
    (∃ r, renderResults ⟨"abc".data, "report.docx".data⟩ = some r ∧
      r.download_data = "abc".data ∧
      (("abc".data).length ≤ 2000 → r.preview = "abc".data) ∧
      (2000 < ("abc".data).length →
        r.preview = ("abc".data).take 2000 ++ truncNotice)) :=
  ⟨by decide,
    preview_truncation_spec "abc".data "report.docx".data (by decide)⟩

/-- C7: a successful file conversion of an uploaded file whose name contains
a dot stores the engine's text and the original filename — overwriting both
session fields with values independent of the previous state — and the
download is offered under the original name with its final extension
replaced by `.md`. -/
theorem file_conversion_output_filename (st : SessionState)
    (fname url text : List Char) (ue : Except (List Char) (List Char))
    (hdot : '.' ∈ fname) (hval : url = [] ∨ is_youtube_url url = true) :
    ∃ stem ext, fname = stem ++ '.' :: ext ∧ '.' ∉ ext ∧
      submitStep st (some fname) url (Except.ok text) ue =
        ⟨⟨text, fname⟩, SubmitMsg.success, true, false⟩ ∧
      (text ≠ [] → ∃ r, renderResults ⟨text, fname⟩ = some r ∧
        r.download_name = stem ++ ".md".data ∧
        r.download_data = text) := by
  obtain ⟨stem, ext, hsplit, hext, hstem⟩ := rsplitStem_split hdot
  refine ⟨stem, ext, hsplit, hext, ?_, ?_⟩
  · unfold submitStep
    rw [if_neg (by simp), if_neg (by rcases hval with h | h <;> simp [h])]
    rfl
  · intro ht
    have hr : renderResults ⟨text, fname⟩ =
        some ⟨rsplitStem fname ++ ".md".data, text,
          if 2000 < text.length then text.take 2000 ++ truncNotice
          else text.take 2000⟩ := by
      simp [renderResults, ht]
    exact ⟨_, hr, by rw [hstem], rfl⟩

/-- C7 (witness): converting `report.docx` successfully stores the result
and offers the download as `report.md`. -/
theorem file_conversion_output_filename_witness :
    ∃ stem ext, "report.docx".data = stem ++ '.' :: ext ∧ '.' ∉ ext ∧
      submitStep ⟨[], []⟩ (some "report.docx".data) []
          (Except.ok "hi".data) (Except.ok []) =
        ⟨⟨"hi".data, "report.docx".data⟩, SubmitMsg.success, true, false⟩ ∧
      ("hi".data ≠ [] → ∃ r,
        renderResults ⟨"hi".data, "report.docx".data⟩ = some r ∧
        r.download_name = stem ++ ".md".data ∧
        r.download_data = "hi".data) :=
  file_conversion_output_filename ⟨[], []⟩ "report.docx".data []
    "hi".data (Except.ok []) (by decide) (Or.inl rfl)

/-- C8: a successful URL conversion stores the engine's text under
`youtube_X.md` when the extractor returns the identifier `X` and under
`youtube_video.md` when it returns none, and the download path preserves
that name (extracted identifiers contain no dot, so replacing the extension
is the identity on these names). -/
theorem url_conversion_output_filename (st : SessionState)
    (url text : List Char) (fe : Except (List Char) (List Char))
    (hurl : url ≠ []) (hyt : is_youtube_url url = true) :
    (∀ vid, extract_youtube_id url = some vid →
      submitStep st none url fe (Except.ok text) =
        ⟨⟨text, "youtube_".data ++ vid ++ ".md".data⟩,
          SubmitMsg.success, false, true⟩ ∧
      (text ≠ [] → ∃ r,
        renderResults ⟨text, "youtube_".data ++ vid ++ ".md".data⟩ =
          some r ∧
        r.download_name = "youtube_".data ++ vid ++ ".md".data ∧
        r.download_data = text)) ∧
    (extract_youtube_id url = none →
      submitStep st none url fe (Except.ok text) =
        ⟨⟨text, "youtube_video.md".data⟩, SubmitMsg.success, false, true⟩ ∧
      (text ≠ [] → ∃ r,
        renderResults ⟨text, "youtube_video.md".data⟩ = some r ∧
        r.download_name = "youtube_video.md".data ∧
        r.download_data = text)) := by
  have hstep : submitStep st none url fe (Except.ok text) =
      ⟨⟨text, match extract_youtube_id url with
              | some vid => "youtube_".data ++ vid ++ ".md".data
              | none => "youtube_video.md".data⟩,
        SubmitMsg.success, false, true⟩ := by
    simp [submitStep, hurl, hyt, convert_youtube_to_markdown]
  constructor
  · intro vid hvid
    rw [hvid] at hstep
    refine ⟨hstep, ?_⟩
    intro ht
    have hnd : '.' ∉ vid := extract_youtube_id_no_dot hvid
    have hassoc : "youtube_".data ++ vid ++ ".md".data =
        ("youtube_".data ++ vid) ++ '.' :: "md".data := by
      rw [List.append_assoc]
    have hname : rsplitStem ("youtube_".data ++ vid ++ ".md".data) =
        "youtube_".data ++ vid := by
      rw [hassoc]
      exact rsplitStem_append _ _ (by decide)
    have hr : renderResults ⟨text, "youtube_".data ++ vid ++ ".md".data⟩ =
        some ⟨rsplitStem ("youtube_".data ++ vid ++ ".md".data) ++ ".md".data,
          text,
          if 2000 < text.length then text.take 2000 ++ truncNotice
          else text.take 2000⟩ := by
      simp [renderResults, ht]
    refine ⟨_, hr, ?_, rfl⟩
    rw [hname, List.append_assoc]
  · intro hnone
    rw [hnone] at hstep
    refine ⟨hstep, ?_⟩
    intro ht
    have hr : renderResults ⟨text, "youtube_video.md".data⟩ =
        some ⟨rsplitStem "youtube_video.md".data ++ ".md".data, text,
          if 2000 < text.length then text.take 2000 ++ truncNotice
          else text.take 2000⟩ := by
      simp [renderResults, ht]
    refine ⟨_, hr, ?_, rfl⟩
    exact (by decide :
      rsplitStem "youtube_video.md".data ++ ".md".data =
        "youtube_video.md".data)

/-- C8 (witness): the short-link literal stores its result under
`youtube_dQw4w9WgXcQ.md` and the download keeps that name. -/
theorem url_conversion_output_filename_witness :
    submitStep ⟨[], []⟩ none "https://youtu.be/dQw4w9WgXcQ".data
        (Except.ok []) (Except.ok "hi".data) =
      ⟨⟨"hi".data, "youtube_".data ++ "dQw4w9WgXcQ".data ++ ".md".data⟩,
        SubmitMsg.success, false, true⟩ ∧
    ("hi".data ≠ [] → ∃ r,
      renderResults
          ⟨"hi".data,
            "youtube_".data ++ "dQw4w9WgXcQ".data ++ ".md".data⟩ =
        some r ∧
      r.download_name =
        "youtube_".data ++ "dQw4w9WgXcQ".data ++ ".md".data ∧
      r.download_data = "hi".data) :=
  (url_conversion_output_filename ⟨[], []⟩
      "https://youtu.be/dQw4w9WgXcQ".data "hi".data (Except.ok [])
      (by decide) (by decide)).1
    "dQw4w9WgXcQ".data (by decide)

/-- C9: the two literal inputs from the spec behave as stated: the standard
watch URL is classified as a video URL and yields `dQw4w9WgXcQ`, and the
short link also yields `dQw4w9WgXcQ`. -/
theorem literal_url_examples :
    is_youtube_url "https://www.youtube.com/watch?v=dQw4w9WgXcQ".data =
      true ∧
    extract_youtube_id "https://www.youtube.com/watch?v=dQw4w9WgXcQ".data =
      some "dQw4w9WgXcQ".data ∧
    extract_youtube_id "https://youtu.be/dQw4w9WgXcQ".data =
      some "dQw4w9WgXcQ".data := by decide

/-- C10: when both a file and a (nonempty) URL are supplied, a URL failing
the classifier rejects the whole submission with the validation error and no
conversion, while a URL passing the classifier leads to the file being
converted with the URL ignored (the outcome equals that of the same
submission with no URL at all). -/
theorem file_branch_precedence (st : SessionState) (fname url : List Char)
    (fe ue : Except (List Char) (List Char)) (hurl : url ≠ []) :
    (is_youtube_url url = false →
      submitStep st (some fname) url fe ue =
        ⟨st, SubmitMsg.validationErrorBadUrl, false, false⟩) ∧
    (is_youtube_url url = true →
      (submitStep st (some fname) url fe ue).calledFileConv = true ∧
      (submitStep st (some fname) url fe ue).calledUrlConv = false ∧
      submitStep st (some fname) url fe ue =
        submitStep st (some fname) [] fe ue) := by
  constructor
  · intro hyt
    unfold submitStep
    rw [if_neg (by simp), if_pos ⟨hurl, hyt⟩]
  · intro hyt
    have hstep : submitStep st (some fname) url fe ue =
        submitStep st (some fname) [] fe ue := by
      simp [submitStep, hurl, hyt]
    have hcalls : ∀ (g : Except (List Char) (List Char)),
        (submitStep st (some fname) [] g ue).calledFileConv = true ∧
        (submitStep st (some fname) [] g ue).calledUrlConv = false := by
      intro g
      rcases g with e | t
      · by_cases he : e = [] <;>
          simp [submitStep, convert_file_to_markdown, he]
      · simp [submitStep, convert_file_to_markdown]
    exact ⟨by rw [hstep]; exact (hcalls fe).1,
      by rw [hstep]; exact (hcalls fe).2, hstep⟩

/-- C10 (witness): with a file present, the bad URL
`https://example.com/video` rejects the submission, while the good short
link leaves the file branch to run. -/
theorem file_branch_precedence_witness :
    submitStep ⟨[], []⟩ (some "doc.docx".data)
        "https://example.com/video".data (Except.ok "x".data)
        (Except.ok []) =
      ⟨⟨[], []⟩, SubmitMsg.validationErrorBadUrl, false, false⟩ ∧
    (submitStep ⟨[], []⟩ (some "doc.docx".data)
        "https://youtu.be/dQw4w9WgXcQ".data (Except.ok "x".data)
        (Except.ok [])).calledFileConv = true :=
  ⟨(file_branch_precedence ⟨[], []⟩ "doc.docx".data
      "https://example.com/video".data (Except.ok "x".data)
      (Except.ok []) (by decide)).1 (by decide),
    ((file_branch_precedence ⟨[], []⟩ "doc.docx".data
      "https://youtu.be/dQw4w9WgXcQ".data (Except.ok "x".data)
      (Except.ok []) (by decide)).2 (by decide)).1⟩

end OfficeToMd
